import Mathlib

/-!
Shallow embedding of the nearest-index lookup of `tools.py`
(`NearestIndex`, `NearestDtIndex`, `nn`, `nnDt`) and proofs of the
specified properties of the Nearest-Match Locator.

Real numbers are modelled as rationals; a timestamp is modelled by its
elapsed seconds from a fixed epoch (also a rational), which is faithful
for every comparison and difference the code performs.  Python dynamic
typing is modelled by the sum type `Val`; exceptions raised by the code
(numpy `ValueError` on `np.min` of an empty array, `TypeError` on
subtraction of incompatible kinds, `IndexError` on `x[0]` of an empty
list) are modelled with `Except NNError`.
-/

/-- Abstract error kinds raised by the lookup:
`invalidInput` is the failure of `np.min` on an empty array (empty
reference series), `typeMismatch` the failure of subtracting values of
incompatible kinds, `indexError` the failure of `x[0]` on an empty list. -/
inductive NNError where
  | invalidInput
  | typeMismatch
  | indexError
deriving DecidableEq

/-- A dynamically typed scalar value: a real number, or a timestamp
represented by its elapsed seconds from a fixed epoch. -/
inductive Val where
  | num : ℚ → Val
  | dt : ℚ → Val
deriving DecidableEq

/-- A query argument: a single value or a Python list of values. -/
inductive Query where
  | scalar : Val → Query
  | seq : List Val → Query
deriving DecidableEq

/-- The value stored in the `idx` attribute: a single index or an array
of indices. -/
inductive NNResult where
  | idx : ℕ → NNResult
  | indices : List ℕ → NNResult
deriving DecidableEq

/-- Python's `abs` on a number: the magnitude.  Written with an `if` so
that it evaluates by kernel reduction. -/
def rabs (q : ℚ) : ℚ := if q < 0 then -q else q

/-- One element of `abs(arr - x)` in `NearestIndex.get_nearest_index`:
numpy subtracts the scalar `x` from a reference entry and takes the
magnitude.  Number minus number and timestamp minus timestamp succeed
(the latter giving a timedelta, measured here in seconds); subtraction
of incompatible kinds raises a `TypeError`. -/
def absSubNum (a x : Val) : Except NNError ℚ :=
  match a, x with
  | .num a, .num x => .ok (rabs (a - x))
  | .dt a, .dt x => .ok (rabs (a - x))
  | _, _ => .error .typeMismatch

/-- One element of the comprehension
`[abs((iDt - Dt).total_seconds()) for iDt in Dtarr]` in
`NearestDtIndex.get_nearestDt_index`: only timestamp minus timestamp
yields a timedelta with `total_seconds`; any other combination raises. -/
def absSubDt (a x : Val) : Except NNError ℚ :=
  match a, x with
  | .dt a, .dt x => .ok (rabs (a - x))
  | _, _ => .error .typeMismatch

/-- Left-to-right effectful map: a Python list comprehension whose body
may raise, stopping at the first raised exception. -/
def mapExcept (f : α → Except ε β) : List α → Except ε (List β)
  | [] => .ok []
  | a :: as =>
    match f a with
    | .error e => .error e
    | .ok b =>
      match mapExcept f as with
      | .error e => .error e
      | .ok bs => .ok (b :: bs)

/-- Embeds `np.min` on a one-dimensional array: the least element, with a
`ValueError` (zero-size reduction) on an empty array. -/
def npMin (delta : List ℚ) : Except NNError ℚ :=
  match delta.min? with
  | none => .error .invalidInput
  | some m => .ok m

namespace NearestIndex

/-- Embeds `NearestIndex.get_nearest_index`:
`delta = abs(arr - x); idx = np.where(delta == np.min(delta))[0][0]`,
the first index (in ascending index order) at which `delta` attains its
minimum. -/
def get_nearest_index (arr : List Val) (x : Val) : Except NNError ℕ :=
  match mapExcept (fun a => absSubNum a x) arr with
  | .error e => .error e
  | .ok delta =>
    match npMin delta with
    | .error e => .error e
    | .ok m => .ok (delta.findIdx (fun d => decide (d = m)))

/-- Embeds `NearestIndex.get_nearest_indice`: the scalar lookup applied
to each query element in order. -/
def get_nearest_indice (arr : List Val) (xs : List Val) : Except NNError (List ℕ) :=
  mapExcept (fun ix => get_nearest_index arr ix) xs

/-- Embeds `NearestIndex.__init__`: `np.size(x) > 1` selects the batched
lookup; otherwise a list query is unwrapped to `x[0]` (raising an
`IndexError` when the list is empty) and the scalar lookup runs. -/
def init (arr : List Val) (x : Query) : Except NNError NNResult :=
  match x with
  | .seq xs =>
    if 1 < xs.length then
      (get_nearest_indice arr xs).map .indices
    else
      match xs with
      | [] => .error .indexError
      | v :: _ => (get_nearest_index arr v).map .idx
  | .scalar v => (get_nearest_index arr v).map .idx

end NearestIndex

namespace NearestDtIndex

/-- Embeds `NearestDtIndex.get_nearestDt_index`:
`delta = [abs((iDt - Dt).total_seconds()) for iDt in Dtarr]` followed by
the first index at which `delta` attains its minimum. -/
def get_nearestDt_index (Dtarr : List Val) (Dt : Val) : Except NNError ℕ :=
  match mapExcept (fun iDt => absSubDt iDt Dt) Dtarr with
  | .error e => .error e
  | .ok delta =>
    match npMin delta with
    | .error e => .error e
    | .ok m => .ok (delta.findIdx (fun d => decide (d = m)))

/-- Embeds `NearestDtIndex.get_nearestDt_indice`. -/
def get_nearestDt_indice (Dtarr : List Val) (Dts : List Val) : Except NNError (List ℕ) :=
  mapExcept (fun iDt => get_nearestDt_index Dtarr iDt) Dts

/-- Embeds `NearestDtIndex.__init__`, with the same shape dispatch as
`NearestIndex.__init__`. -/
def init (Dtarr : List Val) (Dt : Query) : Except NNError NNResult :=
  match Dt with
  | .seq xs =>
    if 1 < xs.length then
      (get_nearestDt_indice Dtarr xs).map .indices
    else
      match xs with
      | [] => .error .indexError
      | v :: _ => (get_nearestDt_index Dtarr v).map .idx
  | .scalar v => (get_nearestDt_index Dtarr v).map .idx

end NearestDtIndex

/-- Embeds the free function `nn`: construct a `NearestIndex` and read
its `idx` attribute. -/
def nn (arr : List Val) (x : Query) : Except NNError NNResult :=
  NearestIndex.init arr x

/-- Embeds the free function `nnDt`: construct a `NearestDtIndex` and
read its `idx` attribute. -/
def nnDt (Dtarr : List Val) (Dt : Query) : Except NNError NNResult :=
  NearestDtIndex.init Dtarr Dt

instance {ε α : Type} [DecidableEq ε] [DecidableEq α] : DecidableEq (Except ε α) := fun x y =>
  match x, y with
  | .ok a, .ok b => decidable_of_iff (a = b) (by simp)
  | .error e, .error f => decidable_of_iff (e = f) (by simp)
  | .ok _, .error _ => .isFalse Except.noConfusion
  | .error _, .ok _ => .isFalse Except.noConfusion

/-- Every index of a lookup result is below `N`. -/
def resultInRange (res : NNResult) (N : ℕ) : Prop :=
  match res with
  | .idx i => i < N
  | .indices l => ∀ i ∈ l, i < N

/-- Payload of a value, dropping its kind tag. -/
def val (v : Val) : ℚ :=
  match v with
  | .num a => a
  | .dt a => a

/-- Index carried by a successful lookup, with a default for the error case. -/
def okIdx (e : Except NNError ℕ) : ℕ :=
  match e with
  | .ok i => i
  | .error _ => 0

instance : Std.Antisymm ((· ≤ ·) : ℚ → ℚ → Prop) :=
  ⟨fun h1 h2 => le_antisymm h1 h2⟩

example : nn ([5, 3, 3, 8].map Val.num) (.scalar (.num 3)) = .ok (.idx 1) := by
  norm_num [nn, NearestIndex.init, NearestIndex.get_nearest_index, mapExcept, absSubNum,
    npMin, rabs, List.min?, min_def, List.findIdx, List.findIdx.go, Except.map]
example : nn [] (.scalar (.num 3)) = .error .invalidInput := by
  norm_num [nn, NearestIndex.init, NearestIndex.get_nearest_index, mapExcept, npMin, List.min?, Except.map]
example : nn ([5, 3].map Val.dt) (.scalar (.num 3)) = .error .typeMismatch := by
  norm_num [nn, NearestIndex.init, NearestIndex.get_nearest_index, mapExcept, absSubNum, Except.map]
example : nn ([5, 3, 3, 8].map Val.num) (.seq ([2, 9].map Val.num)) = .ok (.indices [1, 3]) := by
  norm_num [nn, NearestIndex.init, NearestIndex.get_nearest_indice,
    NearestIndex.get_nearest_index, mapExcept, absSubNum,
    npMin, rabs, List.min?, min_def, List.findIdx, List.findIdx.go, Except.map]
example : nn ([5, 3, 3, 8].map Val.num) (.seq [.num 9]) = .ok (.idx 3) := by
  norm_num [nn, NearestIndex.init, NearestIndex.get_nearest_index, mapExcept, absSubNum,
    npMin, rabs, List.min?, min_def, List.findIdx, List.findIdx.go, Except.map]

theorem rabs_eq_abs (q : ℚ) : rabs q = |q| := by
  unfold rabs
  split
  · exact (abs_of_neg (by assumption)).symm
  · exact (abs_of_nonneg (not_lt.mp (by assumption))).symm

theorem absSubNum_num (a q : ℚ) : absSubNum (.num a) (.num q) = .ok |a - q| := by
  simp [absSubNum, rabs_eq_abs]

theorem absSubDt_dt (a q : ℚ) : absSubDt (.dt a) (.dt q) = .ok |a - q| := by
  simp [absSubDt, rabs_eq_abs]

theorem mapExcept_cons (f : α → Except ε β) (a : α) (as : List α) :
    mapExcept f (a :: as) =
      match f a with
      | .error e => .error e
      | .ok b =>
        match mapExcept f as with
        | .error e => .error e
        | .ok bs => .ok (b :: bs) := rfl

theorem mapExcept_ok_forall {α β ε : Type} {f : α → Except ε β} {g : α → β} {l : List α}
    (h : ∀ a ∈ l, f a = .ok (g a)) : mapExcept f l = .ok (l.map g) := by
  induction l with
  | nil => rfl
  | cons a as ih =>
    rw [mapExcept_cons, h a (List.mem_cons_self a as),
      ih (fun b hb => h b (List.mem_cons_of_mem a hb))]
    rfl

theorem mapExcept_cons_error {α β ε : Type} {f : α → Except ε β} {a : α} {e : ε}
    (h : f a = .error e) (as : List α) : mapExcept f (a :: as) = .error e := by
  rw [mapExcept_cons, h]

theorem mapExcept_length {α β ε : Type} {f : α → Except ε β} :
    ∀ {l : List α} {l2 : List β}, mapExcept f l = .ok l2 → l2.length = l.length := by
  intro l
  induction l with
  | nil =>
    intro l2 h
    rw [show mapExcept f [] = .ok [] from rfl] at h
    cases h
    rfl
  | cons a as ih =>
    intro l2 h
    rw [mapExcept_cons] at h
    cases hfa : f a with
    | error e => rw [hfa] at h; cases h
    | ok b =>
      rw [hfa] at h
      cases hrec : mapExcept f as with
      | error e => rw [hrec] at h; cases h
      | ok bs =>
        rw [hrec] at h
        cases h
        simp [ih hrec]

theorem mapExcept_mem {α β ε : Type} {f : α → Except ε β} :
    ∀ {l : List α} {l2 : List β}, mapExcept f l = .ok l2 → ∀ b ∈ l2, ∃ a ∈ l, f a = .ok b := by
  intro l
  induction l with
  | nil =>
    intro l2 h
    rw [show mapExcept f [] = .ok [] from rfl] at h
    cases h
    intro b hb
    cases hb
  | cons a as ih =>
    intro l2 h
    rw [mapExcept_cons] at h
    cases hfa : f a with
    | error e => rw [hfa] at h; cases h
    | ok b =>
      rw [hfa] at h
      cases hrec : mapExcept f as with
      | error e => rw [hrec] at h; cases h
      | ok bs =>
        rw [hrec] at h
        cases h
        intro c hc
        rcases List.mem_cons.mp hc with hc | hc
        · exact ⟨a, List.mem_cons_self a as, hc ▸ hfa⟩
        · obtain ⟨a2, ha2, hfa2⟩ := ih hrec c hc
          exact ⟨a2, List.mem_cons_of_mem a ha2, hfa2⟩

theorem min?_spec {delta : List ℚ} (h : delta ≠ []) :
    ∃ m, delta.min? = some m ∧ m ∈ delta ∧ ∀ b ∈ delta, m ≤ b := by
  cases hd : delta.min? with
  | none => exact absurd (List.min?_eq_none_iff.mp hd) h
  | some m =>
    have hs := (List.min?_eq_some_iff (fun a => le_refl a) (fun a b => min_choice a b)
      (fun a b c => le_min_iff)).mp hd
    exact ⟨m, rfl, hs.1, hs.2⟩

theorem argmin_spec (delta : List ℚ) (hne : delta ≠ []) :
    ∃ m, delta.min? = some m ∧
      ∃ hi : delta.findIdx (fun d => decide (d = m)) < delta.length,
        delta.get ⟨delta.findIdx (fun d => decide (d = m)), hi⟩ = m ∧
        (∀ j : Fin delta.length, m ≤ delta.get j) ∧
        (∀ j : Fin delta.length, (j : ℕ) < delta.findIdx (fun d => decide (d = m)) →
          m < delta.get j) := by
  obtain ⟨m, hmin, hmem, hle⟩ := min?_spec hne
  have hex : ∃ x ∈ delta, (fun d => decide (d = m)) x = true := ⟨m, hmem, by simp⟩
  have hi := List.findIdx_lt_length_of_exists hex
  refine ⟨m, hmin, hi, ?_, ?_, ?_⟩
  · have hp := List.findIdx_getElem (w := hi)
    simpa using hp
  · intro j
    exact hle _ (List.get_mem delta j.val j.isLt)
  · intro j hj
    have hne2 : delta.get j ≠ m := by
      have := List.not_of_lt_findIdx hj
      simpa using this
    exact lt_of_le_of_ne (hle _ (List.get_mem delta j.val j.isLt)) (Ne.symm hne2)

theorem delta_num (R : List ℚ) (q : ℚ) :
    mapExcept (fun a => absSubNum a (Val.num q)) (R.map Val.num)
      = .ok (R.map fun a => |a - q|) := by
  have hcomp : (R.map Val.num).map (fun v => |val v - q|) = R.map fun a => |a - q| := by
    rw [List.map_map]; rfl
  rw [← hcomp]
  apply mapExcept_ok_forall
  intro v hv
  obtain ⟨a, _, rfl⟩ := List.mem_map.mp hv
  simpa [val] using absSubNum_num a q

theorem delta_dt (R : List ℚ) (q : ℚ) :
    mapExcept (fun iDt => absSubDt iDt (Val.dt q)) (R.map Val.dt)
      = .ok (R.map fun a => |a - q|) := by
  have hcomp : (R.map Val.dt).map (fun v => |val v - q|) = R.map fun a => |a - q| := by
    rw [List.map_map]; rfl
  rw [← hcomp]
  apply mapExcept_ok_forall
  intro v hv
  obtain ⟨a, _, rfl⟩ := List.mem_map.mp hv
  simpa [val] using absSubDt_dt a q

theorem get_map_abs (R : List ℚ) (q : ℚ) (k : ℕ) (hk : k < R.length)
    (h2 : k < (R.map fun a => |a - q|).length) :
    (R.map fun a => |a - q|).get ⟨k, h2⟩ = |R.get ⟨k, hk⟩ - q| := by
  simp

theorem get_nearest_index_num_spec (R : List ℚ) (hR : R ≠ []) (q : ℚ) :
    ∃ i : Fin R.length,
      NearestIndex.get_nearest_index (R.map Val.num) (Val.num q) = .ok i.val ∧
      (∀ j : Fin R.length, |R.get i - q| ≤ |R.get j - q|) ∧
      (∀ j : Fin R.length, (j : ℕ) < (i : ℕ) → |R.get i - q| < |R.get j - q|) := by
  have hne : (R.map fun a => |a - q|) ≠ [] := by simpa using hR
  obtain ⟨m, hmin, hi, hget, hle, hfirst⟩ := argmin_spec _ hne
  have hlen : (R.map fun a => |a - q|).length = R.length := by simp
  have hiR : (R.map fun a => |a - q|).findIdx (fun d => decide (d = m)) < R.length :=
    hlen ▸ hi
  refine ⟨⟨_, hiR⟩, ?_, ?_, ?_⟩
  · simp only [NearestIndex.get_nearest_index, delta_num, npMin, hmin]
  · intro j
    calc |R.get ⟨_, hiR⟩ - q| = m := (get_map_abs R q _ hiR hi).symm.trans hget
      _ ≤ (R.map fun a => |a - q|).get ⟨j.val, hlen.symm ▸ j.isLt⟩ :=
        hle ⟨j.val, hlen.symm ▸ j.isLt⟩
      _ = |R.get j - q| := get_map_abs R q j.val j.isLt _
  · intro j hj
    calc |R.get ⟨_, hiR⟩ - q| = m := (get_map_abs R q _ hiR hi).symm.trans hget
      _ < (R.map fun a => |a - q|).get ⟨j.val, hlen.symm ▸ j.isLt⟩ :=
        hfirst ⟨j.val, hlen.symm ▸ j.isLt⟩ hj
      _ = |R.get j - q| := get_map_abs R q j.val j.isLt _

theorem get_nearestDt_index_dt_spec (R : List ℚ) (hR : R ≠ []) (q : ℚ) :
    ∃ i : Fin R.length,
      NearestDtIndex.get_nearestDt_index (R.map Val.dt) (Val.dt q) = .ok i.val ∧
      (∀ j : Fin R.length, |R.get i - q| ≤ |R.get j - q|) ∧
      (∀ j : Fin R.length, (j : ℕ) < (i : ℕ) → |R.get i - q| < |R.get j - q|) := by
  have hne : (R.map fun a => |a - q|) ≠ [] := by simpa using hR
  obtain ⟨m, hmin, hi, hget, hle, hfirst⟩ := argmin_spec _ hne
  have hlen : (R.map fun a => |a - q|).length = R.length := by simp
  have hiR : (R.map fun a => |a - q|).findIdx (fun d => decide (d = m)) < R.length :=
    hlen ▸ hi
  refine ⟨⟨_, hiR⟩, ?_, ?_, ?_⟩
  · simp only [NearestDtIndex.get_nearestDt_index, delta_dt, npMin, hmin]
  · intro j
    calc |R.get ⟨_, hiR⟩ - q| = m := (get_map_abs R q _ hiR hi).symm.trans hget
      _ ≤ (R.map fun a => |a - q|).get ⟨j.val, hlen.symm ▸ j.isLt⟩ :=
        hle ⟨j.val, hlen.symm ▸ j.isLt⟩
      _ = |R.get j - q| := get_map_abs R q j.val j.isLt _
  · intro j hj
    calc |R.get ⟨_, hiR⟩ - q| = m := (get_map_abs R q _ hiR hi).symm.trans hget
      _ < (R.map fun a => |a - q|).get ⟨j.val, hlen.symm ▸ j.isLt⟩ :=
        hfirst ⟨j.val, hlen.symm ▸ j.isLt⟩ hj
      _ = |R.get j - q| := get_map_abs R q j.val j.isLt _

/-- C1: for every non-empty numeric reference series R and scalar numeric
query q, the nearest-index lookup returns an index i with
|R[i] - q| ≤ |R[j] - q| for every j in range(len(R)). -/
theorem C1_nearest_index_minimizes (R : List ℚ) (hR : R ≠ []) (q : ℚ) :
    ∃ i : Fin R.length,
      NearestIndex.get_nearest_index (R.map Val.num) (Val.num q) = .ok i.val ∧
      ∀ j : Fin R.length, |R.get i - q| ≤ |R.get j - q| := by
  obtain ⟨i, hok, hle, -⟩ := get_nearest_index_num_spec R hR q
  exact ⟨i, hok, hle⟩

/-- Witness for C1 at R = [5, 3, 3, 8], q = 3. -/
theorem C1_witness :
    ∃ i : Fin ([5, 3, 3, 8] : List ℚ).length,
      NearestIndex.get_nearest_index (([5, 3, 3, 8] : List ℚ).map Val.num) (Val.num 3)
        = .ok i.val ∧
      ∀ j : Fin ([5, 3, 3, 8] : List ℚ).length,
        |([5, 3, 3, 8] : List ℚ).get i - 3| ≤ |([5, 3, 3, 8] : List ℚ).get j - 3| :=
  C1_nearest_index_minimizes [5, 3, 3, 8] (by simp) 3

/-- C2: when several indices tie for the minimum distance the lookup returns
the first such index in ascending index order, for both the numeric and the
timestamp variant; in particular the lookup on [5, 3, 3, 8] with query 3
returns index 1, not 2. -/
theorem C2_tie_break_first (R : List ℚ) (hR : R ≠ []) (q : ℚ) :
    (∃ i : Fin R.length,
      NearestIndex.get_nearest_index (R.map Val.num) (Val.num q) = .ok i.val ∧
      (∀ j : Fin R.length, |R.get i - q| ≤ |R.get j - q|) ∧
      (∀ j : Fin R.length, (j : ℕ) < (i : ℕ) → |R.get i - q| < |R.get j - q|)) ∧
    (∃ i : Fin R.length,
      NearestDtIndex.get_nearestDt_index (R.map Val.dt) (Val.dt q) = .ok i.val ∧
      (∀ j : Fin R.length, |R.get i - q| ≤ |R.get j - q|) ∧
      (∀ j : Fin R.length, (j : ℕ) < (i : ℕ) → |R.get i - q| < |R.get j - q|)) ∧
    nn (([5, 3, 3, 8] : List ℚ).map Val.num) (.scalar (.num 3)) = .ok (.idx 1) :=
  ⟨get_nearest_index_num_spec R hR q, get_nearestDt_index_dt_spec R hR q, by
    norm_num [nn, NearestIndex.init, NearestIndex.get_nearest_index, mapExcept, absSubNum,
      npMin, rabs, List.min?, min_def, List.findIdx, List.findIdx.go, Except.map]⟩

/-- Witness for C2 at R = [5, 3, 3, 8], q = 3. -/
theorem C2_witness :
    (∃ i : Fin ([5, 3, 3, 8] : List ℚ).length,
      NearestIndex.get_nearest_index (([5, 3, 3, 8] : List ℚ).map Val.num) (Val.num 3)
        = .ok i.val ∧
      (∀ j : Fin ([5, 3, 3, 8] : List ℚ).length,
        |([5, 3, 3, 8] : List ℚ).get i - 3| ≤ |([5, 3, 3, 8] : List ℚ).get j - 3|) ∧
      (∀ j : Fin ([5, 3, 3, 8] : List ℚ).length, (j : ℕ) < (i : ℕ) →
        |([5, 3, 3, 8] : List ℚ).get i - 3| < |([5, 3, 3, 8] : List ℚ).get j - 3|)) ∧
    (∃ i : Fin ([5, 3, 3, 8] : List ℚ).length,
      NearestDtIndex.get_nearestDt_index (([5, 3, 3, 8] : List ℚ).map Val.dt) (Val.dt 3)
        = .ok i.val ∧
      (∀ j : Fin ([5, 3, 3, 8] : List ℚ).length,
        |([5, 3, 3, 8] : List ℚ).get i - 3| ≤ |([5, 3, 3, 8] : List ℚ).get j - 3|) ∧
      (∀ j : Fin ([5, 3, 3, 8] : List ℚ).length, (j : ℕ) < (i : ℕ) →
        |([5, 3, 3, 8] : List ℚ).get i - 3| < |([5, 3, 3, 8] : List ℚ).get j - 3|)) ∧
    nn (([5, 3, 3, 8] : List ℚ).map Val.num) (.scalar (.num 3)) = .ok (.idx 1) :=
  C2_tie_break_first [5, 3, 3, 8] (by simp) 3

/-- C3: with an empty reference series the lookup fails with InvalidInput
(the zero-size `np.min` reduction) rather than returning an index, for every
scalar query and every non-empty sequence query, in both variants. -/
theorem C3_empty_reference_fails (q : Query) (hq : q ≠ .seq []) :
    nn [] q = .error .invalidInput ∧ nnDt [] q = .error .invalidInput := by
  cases q with
  | scalar v => exact ⟨rfl, rfl⟩
  | seq xs =>
    cases xs with
    | nil => exact absurd rfl hq
    | cons v vs =>
      cases vs with
      | nil => exact ⟨rfl, rfl⟩
      | cons v2 vs2 =>
        have h2 : 1 < (v :: v2 :: vs2).length := by simp
        constructor <;>
          simp [nn, nnDt, NearestIndex.init, NearestDtIndex.init, h2,
            NearestIndex.get_nearest_indice, NearestDtIndex.get_nearestDt_indice, mapExcept,
            NearestIndex.get_nearest_index, NearestDtIndex.get_nearestDt_index,
            npMin, List.min?, Except.map]

/-- Witness for C3 at the scalar query 0. -/
theorem C3_witness :
    nn [] (.scalar (.num 0)) = .error .invalidInput ∧
    nnDt [] (.scalar (.num 0)) = .error .invalidInput :=
  C3_empty_reference_fails (.scalar (.num 0)) (fun h => Query.noConfusion h)

theorem get_nearest_index_num_ok (R : List ℚ) (hR : R ≠ []) (q : ℚ) :
    NearestIndex.get_nearest_index (R.map Val.num) (Val.num q)
      = .ok (okIdx (NearestIndex.get_nearest_index (R.map Val.num) (Val.num q))) := by
  obtain ⟨i, hok, -⟩ := get_nearest_index_num_spec R hR q
  rw [hok]
  rfl

theorem get_nearestDt_index_dt_ok (R : List ℚ) (hR : R ≠ []) (q : ℚ) :
    NearestDtIndex.get_nearestDt_index (R.map Val.dt) (Val.dt q)
      = .ok (okIdx (NearestDtIndex.get_nearestDt_index (R.map Val.dt) (Val.dt q))) := by
  obtain ⟨i, hok, -⟩ := get_nearestDt_index_dt_spec R hR q
  rw [hok]
  rfl

theorem get_nearest_indice_num (R : List ℚ) (hR : R ≠ []) (qs : List ℚ) :
    NearestIndex.get_nearest_indice (R.map Val.num) (qs.map Val.num)
      = .ok ((qs.map Val.num).map
          (fun v => okIdx (NearestIndex.get_nearest_index (R.map Val.num) v))) := by
  unfold NearestIndex.get_nearest_indice
  apply mapExcept_ok_forall
  intro v hv
  obtain ⟨a, -, rfl⟩ := List.mem_map.mp hv
  exact get_nearest_index_num_ok R hR a

theorem get_nearestDt_indice_dt (R : List ℚ) (hR : R ≠ []) (qs : List ℚ) :
    NearestDtIndex.get_nearestDt_indice (R.map Val.dt) (qs.map Val.dt)
      = .ok ((qs.map Val.dt).map
          (fun v => okIdx (NearestDtIndex.get_nearestDt_index (R.map Val.dt) v))) := by
  unfold NearestDtIndex.get_nearestDt_indice
  apply mapExcept_ok_forall
  intro v hv
  obtain ⟨a, -, rfl⟩ := List.mem_map.mp hv
  exact get_nearestDt_index_dt_ok R hR a

/-- C4 counterexample: on reference [0] the sequence query [5] of length
M = 1 does NOT yield a one-element sequence of indices; it yields the bare
scalar index 0. -/
theorem C4_counterexample :
    nn [Val.num 0] (.seq [Val.num 5]) = .ok (.idx 0) ∧
    ∀ l : List ℕ, nn [Val.num 0] (.seq [Val.num 5]) ≠ .ok (.indices l) := by
  have h : nn [Val.num 0] (.seq [Val.num 5]) = .ok (.idx 0) := by
    norm_num [nn, NearestIndex.init, NearestIndex.get_nearest_index, mapExcept, absSubNum,
      npMin, rabs, List.min?, min_def, List.findIdx, List.findIdx.go, Except.map]
  refine ⟨h, ?_⟩
  intro l hl
  rw [h] at hl
  simp at hl

/-- C4 amended: for a non-empty reference series, a scalar query yields a
single index; a sequence query of length M ≥ 2 yields an ordered sequence of
exactly M indices; but a sequence query of length 1 is unwrapped and yields a
single scalar index rather than a one-element sequence. -/
theorem C4_amended_cardinality (R : List ℚ) (hR : R ≠ []) (qs : List ℚ) (q : ℚ) :
    (∃ i : ℕ, nn (R.map Val.num) (.scalar (.num q)) = .ok (.idx i)) ∧
    (2 ≤ qs.length →
      ∃ l : List ℕ, nn (R.map Val.num) (.seq (qs.map Val.num)) = .ok (.indices l) ∧
        l.length = qs.length) ∧
    (∃ i : ℕ, nn (R.map Val.num) (.seq [Val.num q]) = .ok (.idx i)) := by
  obtain ⟨i, hok, -⟩ := get_nearest_index_num_spec R hR q
  refine ⟨⟨i.val, ?_⟩, ?_, ⟨i.val, ?_⟩⟩
  · simp [nn, NearestIndex.init, hok, Except.map]
  · intro h2
    have hlen2 : 1 < (qs.map Val.num).length := by simp; omega
    refine ⟨(qs.map Val.num).map
      (fun v => okIdx (NearestIndex.get_nearest_index (R.map Val.num) v)), ?_, by simp⟩
    simp [nn, NearestIndex.init, hlen2, get_nearest_indice_num R hR qs, Except.map]
    intro hle
    omega
  · simp [nn, NearestIndex.init, hok, Except.map]

/-- Witness for the amended C4 at R = [0], qs = [1, 2], q = 5. -/
theorem C4_amended_witness :
    (∃ i : ℕ, nn ([(0 : ℚ)].map Val.num) (.scalar (.num 5)) = .ok (.idx i)) ∧
    (2 ≤ ([(1 : ℚ), 2]).length →
      ∃ l : List ℕ, nn ([(0 : ℚ)].map Val.num) (.seq (([(1 : ℚ), 2]).map Val.num))
          = .ok (.indices l) ∧
        l.length = ([(1 : ℚ), 2]).length) ∧
    (∃ i : ℕ, nn ([(0 : ℚ)].map Val.num) (.seq [Val.num 5]) = .ok (.idx i)) :=
  C4_amended_cardinality [0] (by simp) [1, 2] 5

/-- C5: batched and single-element calls are consistent, in both variants:
for a query sequence of length at least 2 the batched call succeeds and its
k-th index equals the index of the scalar call on the k-th query element;
for a length-1 query sequence the batched call is unwrapped by the shape
dispatch and returns exactly the scalar call's result. -/
theorem C5_batched_single_consistent (R qs : List ℚ) (hR : R ≠ []) (k : ℕ)
    (hk : k < qs.length) :
    (2 ≤ qs.length →
      (∃ l : List ℕ, nn (R.map Val.num) (.seq (qs.map Val.num)) = .ok (.indices l) ∧
        ∃ i : ℕ, nn (R.map Val.num) (.scalar (.num (qs.get ⟨k, hk⟩))) = .ok (.idx i) ∧
          l.get? k = some i) ∧
      (∃ l : List ℕ, nnDt (R.map Val.dt) (.seq (qs.map Val.dt)) = .ok (.indices l) ∧
        ∃ i : ℕ, nnDt (R.map Val.dt) (.scalar (.dt (qs.get ⟨k, hk⟩))) = .ok (.idx i) ∧
          l.get? k = some i)) ∧
    (qs.length = 1 →
      nn (R.map Val.num) (.seq (qs.map Val.num))
        = nn (R.map Val.num) (.scalar (.num (qs.get ⟨k, hk⟩))) ∧
      nnDt (R.map Val.dt) (.seq (qs.map Val.dt))
        = nnDt (R.map Val.dt) (.scalar (.dt (qs.get ⟨k, hk⟩)))) := by
  constructor
  · intro h2
    have hlen2 : 1 < (qs.map Val.num).length := by simp; omega
    have hlen2d : 1 < (qs.map Val.dt).length := by simp; omega
    constructor
    · obtain ⟨i2, hok2, -⟩ := get_nearest_index_num_spec R hR (qs.get ⟨k, hk⟩)
      simp only [List.get_eq_getElem] at hok2
      refine ⟨(qs.map Val.num).map
        (fun v => okIdx (NearestIndex.get_nearest_index (R.map Val.num) v)), ?_,
        i2.val, ?_, ?_⟩
      · simp [nn, NearestIndex.init, hlen2, get_nearest_indice_num R hR qs, Except.map]
        intro hle
        omega
      · simp [nn, NearestIndex.init, hok2, Except.map]
      · rw [List.get?_map, List.get?_map, List.get?_eq_get hk]
        simp [okIdx, hok2]
    · obtain ⟨i2, hok2, -⟩ := get_nearestDt_index_dt_spec R hR (qs.get ⟨k, hk⟩)
      simp only [List.get_eq_getElem] at hok2
      refine ⟨(qs.map Val.dt).map
        (fun v => okIdx (NearestDtIndex.get_nearestDt_index (R.map Val.dt) v)), ?_,
        i2.val, ?_, ?_⟩
      · simp [nnDt, NearestDtIndex.init, hlen2d, get_nearestDt_indice_dt R hR qs, Except.map]
        intro hle
        omega
      · simp [nnDt, NearestDtIndex.init, hok2, Except.map]
      · rw [List.get?_map, List.get?_map, List.get?_eq_get hk]
        simp [okIdx, hok2]
  · intro h1
    have hk0 : k = 0 := by omega
    subst hk0
    match qs, h1 with
    | [a], _ =>
      exact ⟨rfl, rfl⟩

/-- Witness for C5 at R = [5, 3, 3, 8], qs = [2, 9], k = 1. -/
theorem C5_witness :
    (2 ≤ ([(2 : ℚ), 9]).length →
      (∃ l : List ℕ, nn (([5, 3, 3, 8] : List ℚ).map Val.num)
            (.seq (([(2 : ℚ), 9]).map Val.num)) = .ok (.indices l) ∧
        ∃ i : ℕ, nn (([5, 3, 3, 8] : List ℚ).map Val.num)
            (.scalar (.num (([(2 : ℚ), 9]).get ⟨1, by simp⟩))) = .ok (.idx i) ∧
          l.get? 1 = some i) ∧
      (∃ l : List ℕ, nnDt (([5, 3, 3, 8] : List ℚ).map Val.dt)
            (.seq (([(2 : ℚ), 9]).map Val.dt)) = .ok (.indices l) ∧
        ∃ i : ℕ, nnDt (([5, 3, 3, 8] : List ℚ).map Val.dt)
            (.scalar (.dt (([(2 : ℚ), 9]).get ⟨1, by simp⟩))) = .ok (.idx i) ∧
          l.get? 1 = some i)) ∧
    (([(2 : ℚ), 9]).length = 1 →
      nn (([5, 3, 3, 8] : List ℚ).map Val.num) (.seq (([(2 : ℚ), 9]).map Val.num))
        = nn (([5, 3, 3, 8] : List ℚ).map Val.num)
            (.scalar (.num (([(2 : ℚ), 9]).get ⟨1, by simp⟩))) ∧
      nnDt (([5, 3, 3, 8] : List ℚ).map Val.dt) (.seq (([(2 : ℚ), 9]).map Val.dt))
        = nnDt (([5, 3, 3, 8] : List ℚ).map Val.dt)
            (.scalar (.dt (([(2 : ℚ), 9]).get ⟨1, by simp⟩)))) :=
  C5_batched_single_consistent [5, 3, 3, 8] [2, 9] (by simp) 1 (by simp)

/-- C6: timestamp mode minimizes the absolute elapsed-seconds distance: for a
non-empty timestamp reference series the returned index minimizes |elapsed
seconds|, and on reference [t0, t0 + 60s, t0 + 120s] with query t0 + 50s the
result is index 1. -/
theorem C6_timestamp_elapsed_seconds (D : List ℚ) (hD : D ≠ []) (q : ℚ) :
    (∃ i : Fin D.length,
      NearestDtIndex.get_nearestDt_index (D.map Val.dt) (Val.dt q) = .ok i.val ∧
      ∀ j : Fin D.length, |D.get i - q| ≤ |D.get j - q|) ∧
    ∀ t0 : ℚ, nnDt ([t0, t0 + 60, t0 + 120].map Val.dt) (.scalar (.dt (t0 + 50)))
      = .ok (.idx 1) := by
  constructor
  · obtain ⟨i, hok, hle, -⟩ := get_nearestDt_index_dt_spec D hD q
    exact ⟨i, hok, hle⟩
  · intro t0
    have e1 : t0 - (t0 + 50) = (-50 : ℚ) := by ring
    have e2 : t0 + 60 - (t0 + 50) = (10 : ℚ) := by ring
    have e3 : t0 + 120 - (t0 + 50) = (70 : ℚ) := by ring
    norm_num [nnDt, NearestDtIndex.init, NearestDtIndex.get_nearestDt_index, mapExcept,
      absSubDt, npMin, rabs, e1, e2, e3, List.min?, min_def, List.findIdx, List.findIdx.go,
      Except.map]

/-- Witness for C6 at D = [0, 60, 120], q = 50. -/
theorem C6_witness :
    (∃ i : Fin ([0, 60, 120] : List ℚ).length,
      NearestDtIndex.get_nearestDt_index (([0, 60, 120] : List ℚ).map Val.dt) (Val.dt 50)
        = .ok i.val ∧
      ∀ j : Fin ([0, 60, 120] : List ℚ).length,
        |([0, 60, 120] : List ℚ).get i - 50| ≤ |([0, 60, 120] : List ℚ).get j - 50|) ∧
    ∀ t0 : ℚ, nnDt ([t0, t0 + 60, t0 + 120].map Val.dt) (.scalar (.dt (t0 + 50)))
      = .ok (.idx 1) :=
  C6_timestamp_elapsed_seconds [0, 60, 120] (by simp) 50

/-- C7: a query of a kind incompatible with the reference series fails with
TypeMismatch (the TypeError of the mixed-kind subtraction) rather than
returning an index: a numeric query against a timestamp series and a
timestamp query against a numeric series fail in both variants. -/
theorem C7_type_mismatch_fails (D : List ℚ) (hD : D ≠ []) (q : ℚ) :
    nn (D.map Val.dt) (.scalar (.num q)) = .error .typeMismatch ∧
    nnDt (D.map Val.dt) (.scalar (.num q)) = .error .typeMismatch ∧
    nn (D.map Val.num) (.scalar (.dt q)) = .error .typeMismatch ∧
    nnDt (D.map Val.num) (.scalar (.dt q)) = .error .typeMismatch := by
  obtain ⟨d, ds, rfl⟩ := List.exists_cons_of_ne_nil hD
  refine ⟨?_, ?_, ?_, ?_⟩ <;>
    simp [nn, nnDt, NearestIndex.init, NearestDtIndex.init, NearestIndex.get_nearest_index,
      NearestDtIndex.get_nearestDt_index, mapExcept, absSubNum, absSubDt, Except.map]

/-- Witness for C7 at D = [0], q = 0. -/
theorem C7_witness :
    nn ([(0 : ℚ)].map Val.dt) (.scalar (.num 0)) = .error .typeMismatch ∧
    nnDt ([(0 : ℚ)].map Val.dt) (.scalar (.num 0)) = .error .typeMismatch ∧
    nn ([(0 : ℚ)].map Val.num) (.scalar (.dt 0)) = .error .typeMismatch ∧
    nnDt ([(0 : ℚ)].map Val.num) (.scalar (.dt 0)) = .error .typeMismatch :=
  C7_type_mismatch_fails [0] (by simp) 0

theorem get_nearest_index_lt {arr : List Val} {x : Val} {i : ℕ}
    (h : NearestIndex.get_nearest_index arr x = .ok i) : i < arr.length := by
  unfold NearestIndex.get_nearest_index at h
  cases hmap : mapExcept (fun a => absSubNum a x) arr with
  | error e => rw [hmap] at h; cases h
  | ok delta =>
    simp only [hmap] at h
    cases hmin : delta.min? with
    | none =>
      rw [show npMin delta = .error .invalidInput by simp [npMin, hmin]] at h
      cases h
    | some m =>
      rw [show npMin delta = .ok m by simp [npMin, hmin]] at h
      cases h
      have hlen := mapExcept_length hmap
      have hmem : m ∈ delta := List.min?_mem (fun a b => min_choice a b) hmin
      have hex : ∃ x ∈ delta, (fun d => decide (d = m)) x = true := ⟨m, hmem, by simp⟩
      have hlt := List.findIdx_lt_length_of_exists hex
      omega

theorem get_nearestDt_index_lt {arr : List Val} {x : Val} {i : ℕ}
    (h : NearestDtIndex.get_nearestDt_index arr x = .ok i) : i < arr.length := by
  unfold NearestDtIndex.get_nearestDt_index at h
  cases hmap : mapExcept (fun iDt => absSubDt iDt x) arr with
  | error e => rw [hmap] at h; cases h
  | ok delta =>
    simp only [hmap] at h
    cases hmin : delta.min? with
    | none =>
      rw [show npMin delta = .error .invalidInput by simp [npMin, hmin]] at h
      cases h
    | some m =>
      rw [show npMin delta = .ok m by simp [npMin, hmin]] at h
      cases h
      have hlen := mapExcept_length hmap
      have hmem : m ∈ delta := List.min?_mem (fun a b => min_choice a b) hmin
      have hex : ∃ x ∈ delta, (fun d => decide (d = m)) x = true := ⟨m, hmem, by simp⟩
      have hlt := List.findIdx_lt_length_of_exists hex
      omega

theorem init_range {arr : List Val} {q : Query} {res : NNResult}
    (h : NearestIndex.init arr q = .ok res) : resultInRange res arr.length := by
  cases q with
  | scalar v =>
    simp only [NearestIndex.init] at h
    cases hcall : NearestIndex.get_nearest_index arr v with
    | error e => rw [hcall] at h; simp [Except.map] at h
    | ok i =>
      rw [hcall] at h
      simp only [Except.map] at h
      cases h
      exact get_nearest_index_lt hcall
  | seq xs =>
    simp only [NearestIndex.init] at h
    by_cases hxs : 1 < xs.length
    · rw [if_pos hxs] at h
      cases hcall : NearestIndex.get_nearest_indice arr xs with
      | error e => rw [hcall] at h; simp [Except.map] at h
      | ok l =>
        rw [hcall] at h
        simp only [Except.map] at h
        cases h
        intro i hi
        unfold NearestIndex.get_nearest_indice at hcall
        obtain ⟨a, -, ha⟩ := mapExcept_mem hcall i hi
        exact get_nearest_index_lt ha
    · rw [if_neg hxs] at h
      cases xs with
      | nil => cases h
      | cons v vs =>
        replace h : Except.map NNResult.idx (NearestIndex.get_nearest_index arr v)
            = .ok res := h
        cases hcall : NearestIndex.get_nearest_index arr v with
        | error e => rw [hcall] at h; simp [Except.map] at h
        | ok i =>
          rw [hcall] at h
          simp only [Except.map] at h
          cases h
          exact get_nearest_index_lt hcall

theorem initDt_range {arr : List Val} {q : Query} {res : NNResult}
    (h : NearestDtIndex.init arr q = .ok res) : resultInRange res arr.length := by
  cases q with
  | scalar v =>
    simp only [NearestDtIndex.init] at h
    cases hcall : NearestDtIndex.get_nearestDt_index arr v with
    | error e => rw [hcall] at h; simp [Except.map] at h
    | ok i =>
      rw [hcall] at h
      simp only [Except.map] at h
      cases h
      exact get_nearestDt_index_lt hcall
  | seq xs =>
    simp only [NearestDtIndex.init] at h
    by_cases hxs : 1 < xs.length
    · rw [if_pos hxs] at h
      cases hcall : NearestDtIndex.get_nearestDt_indice arr xs with
      | error e => rw [hcall] at h; simp [Except.map] at h
      | ok l =>
        rw [hcall] at h
        simp only [Except.map] at h
        cases h
        intro i hi
        unfold NearestDtIndex.get_nearestDt_indice at hcall
        obtain ⟨a, -, ha⟩ := mapExcept_mem hcall i hi
        exact get_nearestDt_index_lt ha
    · rw [if_neg hxs] at h
      cases xs with
      | nil => cases h
      | cons v vs =>
        replace h : Except.map NNResult.idx (NearestDtIndex.get_nearestDt_index arr v)
            = .ok res := h
        cases hcall : NearestDtIndex.get_nearestDt_index arr v with
        | error e => rw [hcall] at h; simp [Except.map] at h
        | ok i =>
          rw [hcall] at h
          simp only [Except.map] at h
          cases h
          exact get_nearestDt_index_lt hcall

/-- C8: every index a successful lookup returns lies in [0, N-1]: whenever a
call on a reference series of length N returns a result, every index in that
result is below N, for any reference series and any query, in both variants. -/
theorem C8_index_range (arr : List Val) (q : Query) (res : NNResult) :
    (nn arr q = .ok res → resultInRange res arr.length) ∧
    (nnDt arr q = .ok res → resultInRange res arr.length) :=
  ⟨fun h => init_range h, fun h => initDt_range h⟩

/-- Witness for C8 at arr = [num 0], q = 5, res = idx 0. -/
theorem C8_witness : resultInRange (.idx 0) ([Val.num 0].length) :=
  (C8_index_range [Val.num 0] (.scalar (.num 5)) (.idx 0)).1 (by
    norm_num [nn, NearestIndex.init, NearestIndex.get_nearest_index, mapExcept, absSubNum,
      npMin, rabs, List.min?, min_def, List.findIdx, List.findIdx.go, Except.map])

/-- C9: the lookup is a deterministic function of its inputs: in this pure
embedding both lookups are plain functions of the reference series and the
query (there is no state component at all, so the call cannot mutate its
inputs), and two calls with equal inputs return equal results. -/
theorem C9_pure_deterministic (arr1 arr2 : List Val) (q1 q2 : Query)
    (h1 : arr1 = arr2) (h2 : q1 = q2) :
    nn arr1 q1 = nn arr2 q2 ∧ nnDt arr1 q1 = nnDt arr2 q2 := by
  subst h1
  subst h2
  exact ⟨rfl, rfl⟩

/-- Witness for C9 at arr = [num 1], q = 2. -/
theorem C9_witness :
    nn [Val.num 1] (.scalar (.num 2)) = nn [Val.num 1] (.scalar (.num 2)) ∧
    nnDt [Val.num 1] (.scalar (.num 2)) = nnDt [Val.num 1] (.scalar (.num 2)) :=
  C9_pure_deterministic [Val.num 1] [Val.num 1] (.scalar (.num 2)) (.scalar (.num 2)) rfl rfl

/-- C10: a query given as a list of length exactly 1 is unwrapped by the
shape dispatch (np.size(x) is 1): the lookup returns the very result of the
scalar call on that element, a bare scalar index and never a one-element
sequence, in both variants. -/
theorem C10_singleton_query_unwrapped (arr : List Val) (q : Val) :
    nn arr (.seq [q]) = nn arr (.scalar q) ∧
    nnDt arr (.seq [q]) = nnDt arr (.scalar q) ∧
    (∀ res, nn arr (.seq [q]) = .ok res → ∃ i, res = .idx i) ∧
    (∀ res, nnDt arr (.seq [q]) = .ok res → ∃ i, res = .idx i) := by
  refine ⟨rfl, rfl, ?_, ?_⟩
  · intro res h
    replace h : (NearestIndex.get_nearest_index arr q).map NNResult.idx = .ok res := h
    cases hcall : NearestIndex.get_nearest_index arr q with
    | error e => rw [hcall] at h; simp [Except.map] at h
    | ok i =>
      rw [hcall] at h
      simp only [Except.map] at h
      cases h
      exact ⟨i, rfl⟩
  · intro res h
    replace h : (NearestDtIndex.get_nearestDt_index arr q).map NNResult.idx = .ok res := h
    cases hcall : NearestDtIndex.get_nearestDt_index arr q with
    | error e => rw [hcall] at h; simp [Except.map] at h
    | ok i =>
      rw [hcall] at h
      simp only [Except.map] at h
      cases h
      exact ⟨i, rfl⟩
